import Mathlib

/-!
Verification of the feed-normalization core of the rss-feed-reader
repository (src/rss_reader_custom_parser.py) against its natural-language
specification.  The XML tree produced by xml.etree.ElementTree.fromstring
is modelled as an explicit inductive tree; the library lookup functions
(find, findall, attribute get) are modelled from the documented CPython
ElementTree semantics for the simple tag paths the program uses; the
program's own functions (find_element_text, the link-selection loops,
parse_feed_custom, fetch_feed_content) are translated line by line.
Python exceptions raised inside the try block are modelled with Except.
-/

/-- Decidable equality of Except values, used to evaluate the embedding
at concrete inputs. -/
instance exceptDecEq {e a : Type} [DecidableEq e] [DecidableEq a] :
    DecidableEq (Except e a) := fun x y =>
  match x, y with
  | .ok u, .ok v =>
    if h : u = v then .isTrue (by rw [h]) else .isFalse (by simp [h])
  | .error u, .error v =>
    if h : u = v then .isTrue (by rw [h]) else .isFalse (by simp [h])
  | .ok _, .error _ => .isFalse (by simp)
  | .error _, .ok _ => .isFalse (by simp)

/-- Model of an xml.etree.ElementTree element: the qualified tag (written
with the namespace URI in Clark notation, as ElementTree stores it), the
attribute dictionary, the text node, and the list of direct children in
document order. -/
inductive Element where
  | mk (tag : String) (attrs : List (String × String)) (text : Option String)
       (children : List Element)

/-- Qualified tag of an element. -/
def Element.tag : Element → String
  | .mk t _ _ _ => t

/-- Attribute list of an element. -/
def Element.attrs : Element → List (String × String)
  | .mk _ a _ _ => a

/-- Text node of an element (None when absent, as in ElementTree). -/
def Element.text : Element → Option String
  | .mk _ _ t _ => t

/-- Direct children of an element, in document order. -/
def Element.children : Element → List Element
  | .mk _ _ _ c => c

/-- Model of ElementTree attribute lookup element.get(key): the value of
the attribute, or None when the attribute is absent. -/
def Element.get (e : Element) (key : String) : Option String :=
  e.attrs.lookup key

/-- Python truthiness of an optional string: None and the empty string are
falsy, every other string is truthy. -/
def truthyOpt : Option String → Bool
  | none => false
  | some s => !(s == "")

/-- Model of the Python membership test c in s on the character list of a
string. -/
def charMem (c : Char) : List Char → Bool
  | [] => false
  | x :: xs => x == c || charMem c xs

/-- Model of the Python membership test c in s for a single character. -/
def pyContains (s : String) (c : Char) : Bool :=
  charMem c s.data

/-- Suffix test on character lists, by comparing reversals. -/
def listIsSuffix (suf l : List Char) : Bool :=
  List.isPrefixOf suf.reverse l.reverse

/-- Model of the Python string method s.endswith(suf). -/
def pyEndsWith (s suf : String) : Bool :=
  listIsSuffix suf.data s.data

/-- Model of the Python string method s.strip() (with ASCII whitespace):
drop whitespace from both ends. -/
def pyStrip (s : String) : String :=
  ⟨((s.data.dropWhile Char.isWhitespace).reverse.dropWhile
      Char.isWhitespace).reverse⟩

/-- Characters of a string strictly before the first occurrence of a
character, modelling s.split(c)[0]. -/
def beforeChar (c : Char) (s : String) : List Char :=
  s.data.takeWhile (fun x => !(x == c))

/-- Characters of a string strictly after the first occurrence of a
character, modelling s.split(c, 1)[1]. -/
def afterChar (c : Char) (s : String) : List Char :=
  (s.data.dropWhile (fun x => !(x == c))).drop 1

/-- Model of ElementTree path resolution for the simple tag paths used by
the program.  A path of the form p:name is resolved through the namespace
map to \x7buri\x7dname; if the namespace map is empty or lacks the p key,
CPython's xpath tokenizer raises SyntaxError, modelled as Except.error.
A plain tag resolves to itself. -/
def resolveTag (namespaces : List (String × String)) (tag : String) :
    Except Unit String :=
  if pyContains tag ':' then
    let p : String := ⟨beforeChar ':' tag⟩
    let rest : String := ⟨afterChar ':' tag⟩
    match namespaces.lookup p with
    | some uri => .ok ("\x7b" ++ uri ++ "\x7d" ++ rest)
    | none => .error ()
  else
    .ok tag

/-- Model of parent.find(tag, namespaces): the first direct child whose
qualified tag equals the resolved path, or None; raises (Except.error)
when the path's namespace cannot be resolved. -/
def findE (parent : Element) (tag : String)
    (namespaces : List (String × String)) : Except Unit (Option Element) := do
  let t ← resolveTag namespaces tag
  pure (parent.children.find? (fun c => c.tag == t))

/-- Model of parent.findall(tag, namespaces): every direct child whose
qualified tag equals the resolved path, in document order. -/
def findallE (parent : Element) (tag : String)
    (namespaces : List (String × String)) : Except Unit (List Element) := do
  let t ← resolveTag namespaces tag
  pure (parent.children.filter (fun c => c.tag == t))

/-- Translation of find_element_text (src/rss_reader_custom_parser.py
lines 77-80): the stripped text of the first matching child when the
child exists and its text is truthy, otherwise None. -/
def find_element_text (parent : Element) (tag : String)
    (namespaces : List (String × String)) : Except Unit (Option String) := do
  match ← findE parent tag namespaces with
  | some el =>
    match el.text with
    | some t => if t == "" then pure none else pure (some (pyStrip t))
    | none => pure none
  | none => pure none

/-- Condition of the link-selection loops (lines 140 and 160): the rel
attribute equals alternate, or is absent or empty. -/
def relMatches (l : Element) : Bool :=
  l.get "rel" == some "alternate" || !truthyOpt (l.get "rel")

/-- Translation of the body of the link-selection loops (lines 139-142 and
159-162): primary starts as the accumulator; each matching candidate
overwrites it with its href, and the loop breaks as soon as that href is
truthy. -/
def linkScan (primary : Option String) : List Element → Option String
  | [] => primary
  | l :: ls =>
    if relMatches l then
      let p := l.get "href"
      if truthyOpt p then p else linkScan p ls
    else
      linkScan primary ls

/-- Translation of the full link selection (lines 138-144 and 158-164):
run the loop starting from None, then, when the result is falsy and
candidates exist, fall back to the href of the first candidate. -/
def selectLink (elems : List Element) : Option String :=
  let primary := linkScan none elems
  if truthyOpt primary then primary
  else
    match elems with
    | [] => primary
    | e :: _ => e.get "href"

/-- Normalized entry record built by parse_feed_custom (the entry_data
dictionary): title, link and description, each possibly None. -/
structure Entry where
  title : Option String
  link : Option String
  description : Option String
deriving Repr, DecidableEq

/-- Normalized feed record built by parse_feed_custom (the parsed
dictionary): feed title, description, link and the entry list. -/
structure Parsed where
  title : Option String
  description : Option String
  link : Option String
  entries : List Entry
deriving Repr, DecidableEq

/-- Inclusion test of lines 167 and 196: an entry is appended only when
its title or its link is truthy. -/
def keepEntry (e : Entry) : Bool :=
  truthyOpt e.title || truthyOpt e.link

/-- Translation of the Atom per-entry extraction (lines 148-165): title
from atom:title, description from atom:summary falling back to
atom:content when falsy, link from the selection loop over atom:link
children. -/
def atomEntry (namespaces : List (String × String)) (item : Element) :
    Except Unit Entry := do
  let t ← find_element_text item "atom:title" namespaces
  let s ← find_element_text item "atom:summary" namespaces
  let d ← if truthyOpt s then pure s
          else find_element_text item "atom:content" namespaces
  let lks ← findallE item "atom:link" namespaces
  pure { title := t, link := selectLink lks, description := d }

/-- Translation of the Atom branch (lines 123-168). -/
def parseAtom (namespaces : List (String × String)) (root : Element) :
    Except Unit Parsed := do
  let ft ← find_element_text root "atom:title" namespaces
  let fd ← find_element_text root "atom:subtitle" namespaces
  let flks ← findallE root "atom:link" namespaces
  let items ← findallE root "atom:entry" namespaces
  let es ← items.mapM (atomEntry namespaces)
  pure { title := ft, description := fd, link := selectLink flks,
         entries := es.filter keepEntry }

/-- Translation of the RSS per-item extraction (lines 189-193). -/
def rssEntry (namespaces : List (String × String)) (item : Element) :
    Except Unit Entry := do
  let t ← find_element_text item "title" namespaces
  let l ← find_element_text item "link" namespaces
  let d ← find_element_text item "description" namespaces
  pure { title := t, link := l, description := d }

/-- Translation of the RSS 2.0 channel extraction (lines 177-197). -/
def parseRss (namespaces : List (String × String)) (channel : Element) :
    Except Unit Parsed := do
  let ft ← find_element_text channel "title" namespaces
  let fd ← find_element_text channel "description" namespaces
  let fl ← find_element_text channel "link" namespaces
  let items ← findallE channel "item" namespaces
  let es ← items.mapM (rssEntry namespaces)
  pure { title := ft, description := fd, link := fl,
         entries := es.filter keepEntry }

/-- Error classification of parse_feed_custom's failure exits, one per
distinct return-None site: empty input (line 102), ET.ParseError
(line 205), missing channel (line 175), unknown dialect (line 200), and
the catch-all except Exception (line 208). -/
inductive PErr where
  | emptyInput
  | malformed (detail : String)
  | missingChannel
  | unknownDialect
  | unexpected
deriving Repr, DecidableEq

/-- Lift a Python exception escaping the extraction code into the
catch-all classification of line 208. -/
def liftExc {α : Type} : Except Unit α → Except PErr α
  | .ok a => .ok a
  | .error () => .error .unexpected

/-- Translation of namespace detection (lines 111-114): when the root tag
contains a closing brace, register the URI extracted from the Clark
notation under the canonical atom key; otherwise the map is empty. -/
def parseNamespaces (root : Element) : List (String × String) :=
  if pyContains root.tag '}' then
    [("atom", ⟨(beforeChar '}' root.tag).drop 1⟩)]
  else
    []

/-- Translation of the body of the try block after fromstring
(lines 111-203): dialect detection followed by the dialect-specific
extraction, with the distinct error exits classified. -/
def parseRoot (root : Element) : Except PErr Parsed :=
  let namespaces := parseNamespaces root
  let is_atom := (namespaces.lookup "atom").isSome || pyEndsWith root.tag "feed"
  let is_rss := pyEndsWith root.tag "rss"
  if is_atom then
    liftExc (parseAtom namespaces root)
  else if is_rss then
    match findE root "channel" [] with
    | .error _ => .error .unexpected
    | .ok none => .error .missingChannel
    | .ok (some channel) => liftExc (parseRss namespaces channel)
  else
    .error .unknownDialect

/-- Outcome of the external call xml.etree.ElementTree.fromstring: either
the root element of the parsed tree, or an ET.ParseError carrying a
detail message.  parse_feed_custom is parameterized by this external
parser. -/
inductive XmlResult where
  | ok (root : Element)
  | parseError (detail : String)

/-- Translation of parse_feed_custom (lines 99-210) with its failure
exits classified: falsy input returns at line 102; the stripped content
is handed to fromstring; an ET.ParseError is the malformed exit; the
remaining work is parseRoot. -/
def parse_feed_custom_res (fromstring : String → XmlResult)
    (feed_content : Option String) : Except PErr Parsed :=
  if !truthyOpt feed_content then .error .emptyInput
  else
    match fromstring (pyStrip (feed_content.getD "")) with
    | .parseError d => .error (.malformed d)
    | .ok root => parseRoot root

/-- Actual return value of parse_feed_custom: the parsed dictionary on
success, None on every classified failure exit. -/
def parse_feed_custom (fromstring : String → XmlResult)
    (feed_content : Option String) : Option Parsed :=
  (parse_feed_custom_res fromstring feed_content).toOption

/-- Fetch failure classification for fetch_feed_content: the HttpStatus
variant raised by response.raise_for_status. -/
inductive FetchErr where
  | httpStatus (code : Nat)
deriving Repr, DecidableEq

/-- Translation of the status handling of fetch_feed_content
(lines 16-34), with raise_for_status modelled from its documented
behaviour: it raises requests.exceptions.HTTPError exactly for status
codes 400-599 (the source's own comment in rss_reader_basic.py line 20
says 4xx or 5xx); the exception is caught and classified, any other
status returns the decoded body. -/
def fetch_feed_content_res (status : Nat) (body : String) :
    Except FetchErr String :=
  if 400 ≤ status ∧ status < 600 then .error (.httpStatus status)
  else .ok body

/-- Actual return value of fetch_feed_content: the body, or None when
raise_for_status raised. -/
def fetch_feed_content (status : Nat) (body : String) : Option String :=
  (fetch_feed_content_res status body).toOption

/-- Candidate test used to characterize the link-selection loops: the
candidate matches the rel condition and carries a truthy href. -/
def goodLink (l : Element) : Bool :=
  relMatches l && truthyOpt (l.get "href")

/-- Concrete fixture: an Atom link element with no rel attribute. -/
def c1LinkN : Element :=
  .mk "\x7bhttp://www.w3.org/2005/Atom\x7dlink" [("href", "http://x/n")]
    none []

/-- Concrete fixture: an Atom link element with rel alternate. -/
def c1LinkA : Element :=
  .mk "\x7bhttp://www.w3.org/2005/Atom\x7dlink"
    [("rel", "alternate"), ("href", "http://x/a")] none []

/-- Concrete fixture: an Atom entry whose first link has no rel and whose
second link is the alternate one. -/
def c1Entry : Element :=
  .mk "\x7bhttp://www.w3.org/2005/Atom\x7dentry" [] none
    [c1LinkN, c1LinkA,
     .mk "\x7bhttp://www.w3.org/2005/Atom\x7dtitle" [] (some "T") []]

/-- Concrete fixture: a namespaced Atom feed containing c1Entry. -/
def c1Feed : Element :=
  .mk "\x7bhttp://www.w3.org/2005/Atom\x7dfeed" [] none [c1Entry]

/-- Concrete fixture: a root element in a namespace other than the Atom
one, whose local name neither is feed nor ends in feed or rss. -/
def c2Bar : Element :=
  .mk "\x7bhttp://example.com/\x7dbar" [] none []

/-- Concrete fixture: the unknown-dialect example root foo. -/
def c2Foo : Element :=
  .mk "foo" [] none [.mk "bar" [] none []]

/-- Concrete fixture: the spec's Atom example document, whose root
declares no namespace: a feed with one entry holding a self link, an
alternate link and a title. -/
def c3Feed : Element :=
  .mk "feed" [] none
    [.mk "entry" [] none
      [.mk "link" [("rel", "self"), ("href", "http://x/s")] none [],
       .mk "link" [("rel", "alternate"), ("href", "http://x/a")] none [],
       .mk "title" [] (some "B") []]]

/-- Concrete fixture: the spec's Atom example document as source text. -/
def c3Doc : String :=
  "<feed><entry><link rel=\"self\" href=\"http://x/s\"/><link rel=\"alternate\" href=\"http://x/a\"/><title>B</title></entry></feed>"

/-- Concrete fixture: an RSS document whose channel title is
whitespace-only text. -/
def c4Rss : Element :=
  .mk "rss" [] none
    [.mk "channel" [] none [.mk "title" [] (some "   ") []]]

/-- Concrete fixture: an element with no children, used to exercise the
missing-element case of find_element_text. -/
def c4Empty : Element :=
  .mk "item" [] none []

/-- Concrete fixture: the spec's RSS example document with one item. -/
def c5Rss : Element :=
  .mk "rss" [] none
    [.mk "channel" [] none
      [.mk "title" [] (some "Ex") [],
       .mk "item" [] none
         [.mk "title" [] (some "A") [],
          .mk "link" [] (some "http://x/1") []]]]

/-- Concrete fixture: an RSS root with no channel child. -/
def c7Rss : Element :=
  .mk "rss" [] none [.mk "title" [] (some "x") []]

/-! Helper lemmas about the Except monad and the embedding. -/

/-- Bind in the Except monad yields ok exactly when both steps do. -/
theorem exceptBind_ok {e a b : Type} (x : Except e a) (g : a → Except e b)
    (v : b) :
    (x >>= g) = Except.ok v ↔ ∃ u, x = Except.ok u ∧ g u = Except.ok v := by
  cases x <;> simp [Bind.bind, Except.bind]

/-- Pure in the Except monad yields ok of its argument. -/
theorem exceptPure_ok {e a : Type} (u v : a) :
    (pure u : Except e a) = Except.ok v ↔ u = v := by
  simp [pure, Except.pure]

/-- Lifting a Unit-errored computation preserves successful results. -/
theorem liftExc_ok {a : Type} (x : Except Unit a) (v : a) :
    liftExc x = Except.ok v ↔ x = Except.ok v := by
  cases x <;> simp [liftExc]

/-- Lifting a Unit-errored computation only produces the catch-all
classification on failure. -/
theorem liftExc_error {a : Type} (x : Except Unit a) (er : PErr)
    (h : liftExc x = Except.error er) : er = PErr.unexpected := by
  cases x with
  | ok v => simp [liftExc] at h
  | error u => simp [liftExc] at h; exact h.symm

/-- When some candidate matches the rel condition with a truthy href, the
selection loop returns the href of the first such candidate, whatever the
accumulator holds. -/
theorem linkScan_found (elems : List Element) :
    ∀ (pr : Option String) (l : Element), elems.find? goodLink = some l →
      linkScan pr elems = l.get "href" := by
  induction elems with
  | nil => intro pr l h; simp [List.find?] at h
  | cons x ls ih =>
    intro pr l h
    by_cases hg : goodLink x = true
    · rw [List.find?_cons_of_pos _ hg] at h
      have hg' := hg
      simp [goodLink] at hg'
      obtain ⟨hr, htr⟩ := hg'
      obtain rfl : x = l := by injection h
      simp [linkScan, hr, htr]
    · rw [List.find?_cons_of_neg _ hg] at h
      by_cases hr : relMatches x = true
      · have htr : truthyOpt (x.get "href") = false := by
          cases hc : truthyOpt (x.get "href")
          · rfl
          · exact absurd (by simp [goodLink, hr, hc]) hg
        simp [linkScan, hr, htr]
        exact ih _ _ h
      · have hr' : relMatches x = false := by simpa using hr
        simp [linkScan, hr']
        exact ih _ _ h

/-- When no candidate matches the rel condition with a truthy href, the
selection loop starting from a falsy accumulator ends falsy. -/
theorem linkScan_not_found (elems : List Element) :
    ∀ pr : Option String, elems.find? goodLink = none →
      truthyOpt pr = false → truthyOpt (linkScan pr elems) = false := by
  induction elems with
  | nil => intro pr h hp; simpa [linkScan] using hp
  | cons x ls ih =>
    intro pr h hp
    have hg : goodLink x = false := by
      cases hc : goodLink x
      · rfl
      · rw [List.find?_cons_of_pos _ hc] at h; exact absurd h (by simp)
    rw [List.find?_cons_of_neg _ (by simp [hg])] at h
    by_cases hr : relMatches x = true
    · have htr : truthyOpt (x.get "href") = false := by
        cases hc : truthyOpt (x.get "href")
        · rfl
        · have hgt : goodLink x = true := by simp [goodLink, hr, hc]
          rw [hg] at hgt
          exact absurd hgt (by simp)
      simp [linkScan, hr, htr]
      exact ih _ h htr
    · have hr' : relMatches x = false := by simpa using hr
      simp [linkScan, hr']
      exact ih _ h hp

/-- C1 (amended): the selected link is the href of the first candidate,
in document order, whose rel attribute is alternate, absent or empty and
whose href is present and non-empty; when no candidate satisfies both
conditions together, the href of the first candidate encountered is used
(alternate candidates are not preferred over rel-less ones: a single pass
takes whichever comes first). -/
theorem selectLink_characterization (elems : List Element) :
    selectLink elems =
      match elems.find? goodLink with
      | some l => l.get "href"
      | none =>
        match elems with
        | [] => none
        | e :: _ => e.get "href" := by
  cases hf : elems.find? goodLink with
  | some l =>
    have h1 : linkScan none elems = l.get "href" := linkScan_found elems none l hf
    have h2 : truthyOpt (l.get "href") = true := by
      have hgl := List.find?_some hf
      simp [goodLink] at hgl
      exact hgl.2
    simp [selectLink, h1, h2]
  | none =>
    have h1 : truthyOpt (linkScan none elems) = false :=
      linkScan_not_found elems none hf rfl
    cases elems with
    | nil => simp [selectLink, linkScan]
    | cons x ls => simp [selectLink, h1]

/-- C1 counterexample: in the entry of c1Feed the first candidate has no
rel attribute and the second is the alternate link, yet the extracted
entry link is the href of the rel-less first candidate, not the href of
the alternate link as the claim requires. -/
theorem selectLink_claim_cex :
    parse_feed_custom_res (fun _ => XmlResult.ok c1Feed) (some "doc") =
      Except.ok
        { title := none, description := none, link := none,
          entries := [{ title := some "T", link := some "http://x/n",
                        description := none }] } ∧
    c1LinkA.get "rel" = some "alternate" ∧
    c1LinkA.get "href" = some "http://x/a" ∧
    c1LinkN.get "rel" = none ∧
    ("http://x/n" : String) ≠ "http://x/a" := by
  refine ⟨by decide, by decide, by decide, by decide, by decide⟩

/-- Reduction of the top-level parser once the input is truthy and the
external XML parse succeeds. -/
theorem parse_res_ok_root (f : String → XmlResult) (fc : Option String)
    (root : Element) (ht : truthyOpt fc = true)
    (hf : f (pyStrip (fc.getD "")) = XmlResult.ok root) :
    parse_feed_custom_res f fc = parseRoot root := by
  simp [parse_feed_custom_res, ht, hf]

/-- C2 (amended): once the document parses, the normalizer detects Atom
exactly when the root tag carries any namespace URI (whatever its value)
or ends in feed; it detects RSS2 when neither holds and the tag ends in
rss; and it reports the unknown-dialect error exactly when the root tag
has no namespace and ends in neither feed nor rss. -/
theorem dialect_detection (f : String → XmlResult) (fc : Option String)
    (root : Element) (ht : truthyOpt fc = true)
    (hf : f (pyStrip (fc.getD "")) = XmlResult.ok root) :
    parse_feed_custom_res f fc = Except.error PErr.unknownDialect ↔
      (pyContains root.tag '}' = false ∧ pyEndsWith root.tag "feed" = false ∧
       pyEndsWith root.tag "rss" = false) := by
  rw [parse_res_ok_root f fc root ht hf]
  constructor
  · intro h
    by_cases hb : pyContains root.tag '}' = true
    · simp [parseRoot, parseNamespaces, hb, List.lookup] at h
      exact absurd (liftExc_error _ _ h) (by simp)
    · have hb' : pyContains root.tag '}' = false := by simpa using hb
      by_cases hfd : pyEndsWith root.tag "feed" = true
      · simp [parseRoot, parseNamespaces, hb', hfd, List.lookup] at h
        exact absurd (liftExc_error _ _ h) (by simp)
      · have hfd' : pyEndsWith root.tag "feed" = false := by simpa using hfd
        by_cases hrs : pyEndsWith root.tag "rss" = true
        · simp [parseRoot, parseNamespaces, hb', hfd', hrs, List.lookup] at h
          cases hch : findE root "channel" [] with
          | error u => rw [hch] at h; simp at h
          | ok o =>
            rw [hch] at h
            cases o with
            | none => simp at h
            | some channel =>
              simp at h
              exact absurd (liftExc_error _ _ h) (by simp)
        · exact ⟨hb', hfd', by simpa using hrs⟩
  · rintro ⟨hb, hfd, hrs⟩
    simp [parseRoot, parseNamespaces, hb, hfd, hrs, List.lookup]

/-- C2 counterexample: a root in the namespace http://example.com/ (not
the Atom namespace URI) whose local name is bar is treated as Atom and
normalization returns a feed value, where the claim requires the
unknown-dialect error. -/
theorem dialect_claim_cex :
    parse_feed_custom_res (fun _ => XmlResult.ok c2Bar) (some "doc") =
      Except.ok
        { title := none, description := none, link := none,
          entries := [] } ∧
    c2Bar.tag = "\x7bhttp://example.com/\x7dbar" ∧
    pyEndsWith c2Bar.tag "feed" = false ∧
    ("http://example.com/" : String) ≠ "http://www.w3.org/2005/Atom" := by
  refine ⟨by decide, by decide, by decide, by decide⟩

/-- C3: evaluation of the code at the spec's Atom example whose root
declares no namespace.  The namespace map stays empty, so the lookup of
the atom-prefixed paths raises inside the try block and the parser
returns None through the catch-all handler, instead of succeeding with
the entry link http://x/a as the spec requires. -/
theorem atom_example_bug :
    parse_feed_custom_res (fun _ => XmlResult.ok c3Feed) (some c3Doc) =
      Except.error PErr.unexpected ∧
    parse_feed_custom (fun _ => XmlResult.ok c3Feed) (some c3Doc) = none := by
  refine ⟨by decide, by decide⟩

/-- C4 counterexample: an RSS channel whose title element holds
whitespace-only text produces a feed whose title field is the empty
string, not an absent field as the claim requires. -/
theorem whitespace_title_cex :
    parse_feed_custom_res (fun _ => XmlResult.ok c4Rss) (some "doc") =
      Except.ok
        { title := some "", description := none, link := none,
          entries := [] } ∧
    (some "" : Option String) ≠ none := by
  refine ⟨by decide, by decide⟩

/-- C4 (amended): a missing element, or an element whose text node is
absent or the empty string, yields an absent field; but an element whose
text is present and non-empty yields the stripped text even when that
strip is empty, so whitespace-only text produces the empty string rather
than an absent field. -/
theorem find_element_text_spec (parent : Element) (tag : String)
    (ns : List (String × String)) :
    (findE parent tag ns = Except.ok none →
      find_element_text parent tag ns = Except.ok none) ∧
    (∀ el, findE parent tag ns = Except.ok (some el) →
      (el.text = none ∨ el.text = some "") →
      find_element_text parent tag ns = Except.ok none) ∧
    (∀ s, find_element_text parent tag ns = Except.ok (some s) →
      ∃ el t, findE parent tag ns = Except.ok (some el) ∧
        el.text = some t ∧ t ≠ "" ∧ s = pyStrip t) := by
  refine ⟨?_, ?_, ?_⟩
  · intro h
    simp [find_element_text, h, Bind.bind, Except.bind, pure, Except.pure]
  · intro el h htx
    rcases htx with htx | htx <;>
      simp [find_element_text, h, htx, Bind.bind, Except.bind, pure,
        Except.pure]
  · intro s h
    cases hfe : findE parent tag ns with
    | error u =>
      rw [find_element_text, hfe] at h
      simp [Bind.bind, Except.bind] at h
    | ok o =>
      cases o with
      | none =>
        rw [find_element_text, hfe] at h
        simp [Bind.bind, Except.bind, pure, Except.pure] at h
      | some el =>
        refine ⟨el, ?_⟩
        cases htx : el.text with
        | none =>
          rw [find_element_text, hfe] at h
          simp [Bind.bind, Except.bind, htx, pure, Except.pure] at h
        | some t =>
          rw [find_element_text, hfe] at h
          by_cases hte : t == ""
          · simp [Bind.bind, Except.bind, htx, hte, pure, Except.pure] at h
          · simp [Bind.bind, Except.bind, htx, hte, pure, Except.pure] at h
            have hne : t ≠ "" := fun hh => hte (by simp [hh])
            exact ⟨t, rfl, rfl, hne, h.symm⟩

/-- Every entry kept by the Atom branch passes the inclusion test. -/
theorem parseAtom_keep (ns : List (String × String)) (root : Element)
    (p : Parsed) (h : parseAtom ns root = Except.ok p) :
    ∀ e ∈ p.entries, keepEntry e = true := by
  unfold parseAtom at h
  rw [exceptBind_ok] at h; obtain ⟨ft, h1, h⟩ := h
  rw [exceptBind_ok] at h; obtain ⟨fd, h2, h⟩ := h
  rw [exceptBind_ok] at h; obtain ⟨flks, h3, h⟩ := h
  rw [exceptBind_ok] at h; obtain ⟨items, h4, h⟩ := h
  rw [exceptBind_ok] at h; obtain ⟨es, h5, h⟩ := h
  rw [exceptPure_ok] at h
  intro e he
  rw [← h] at he
  exact (List.mem_filter.mp he).2

/-- Every entry kept by the RSS branch passes the inclusion test. -/
theorem parseRss_keep (ns : List (String × String)) (channel : Element)
    (p : Parsed) (h : parseRss ns channel = Except.ok p) :
    ∀ e ∈ p.entries, keepEntry e = true := by
  unfold parseRss at h
  rw [exceptBind_ok] at h; obtain ⟨ft, h1, h⟩ := h
  rw [exceptBind_ok] at h; obtain ⟨fd, h2, h⟩ := h
  rw [exceptBind_ok] at h; obtain ⟨fl, h3, h⟩ := h
  rw [exceptBind_ok] at h; obtain ⟨items, h4, h⟩ := h
  rw [exceptBind_ok] at h; obtain ⟨es, h5, h⟩ := h
  rw [exceptPure_ok] at h
  intro e he
  rw [← h] at he
  exact (List.mem_filter.mp he).2

/-- Every entry of a successfully extracted feed passes the inclusion
test, whichever dialect branch produced it. -/
theorem parseRoot_keep (root : Element) (p : Parsed)
    (h : parseRoot root = Except.ok p) :
    ∀ e ∈ p.entries, keepEntry e = true := by
  simp only [parseRoot] at h
  by_cases ha : ((List.lookup "atom" (parseNamespaces root)).isSome
      || pyEndsWith root.tag "feed") = true
  · rw [if_pos ha] at h
    exact parseAtom_keep _ _ _ ((liftExc_ok _ _).mp h)
  · rw [if_neg ha] at h
    by_cases hr : pyEndsWith root.tag "rss" = true
    · rw [if_pos hr] at h
      cases hch : findE root "channel" [] with
      | error u => rw [hch] at h; exact absurd h (by simp)
      | ok o =>
        rw [hch] at h
        cases o with
        | none => exact absurd h (by simp)
        | some channel => exact parseRss_keep _ _ _ ((liftExc_ok _ _).mp h)
    · rw [if_neg hr] at h
      exact absurd h (by simp)

/-- C5 (confirmed): every entry of a successful normalization carries at
least one non-empty field among title and link; an extracted entry whose
title and link are both absent or empty is discarded regardless of its
description. -/
theorem entries_have_identity (f : String → XmlResult) (fc : Option String)
    (p : Parsed) (e : Entry) (h : parse_feed_custom_res f fc = Except.ok p)
    (he : e ∈ p.entries) :
    truthyOpt e.title = true ∨ truthyOpt e.link = true := by
  have hk : keepEntry e = true := by
    unfold parse_feed_custom_res at h
    split at h
    · exact absurd h (by simp)
    · split at h
      · exact absurd h (by simp)
      · exact parseRoot_keep _ _ h e he
  have := hk
  simp [keepEntry] at this
  exact this

/-- C5 witness: the RSS example document's single entry indeed carries a
truthy title. -/
theorem entries_have_identity_witness :
    truthyOpt (some "A") = true ∨ truthyOpt (some "http://x/1") = true :=
  entries_have_identity (fun _ => XmlResult.ok c5Rss) (some "doc")
    { title := some "Ex", description := none, link := none,
      entries := [{ title := some "A", link := some "http://x/1",
                    description := none }] }
    { title := some "A", link := some "http://x/1", description := none }
    (by decide) (by decide)

/-- C6 (confirmed): when the input is non-empty and the external XML
parse fails, normalization reports the malformed classification carrying
the parser detail, and parse_feed_custom returns None, never partial
data. -/
theorem malformed_input (f : String → XmlResult) (fc : Option String)
    (d : String) (ht : truthyOpt fc = true)
    (hf : f (pyStrip (fc.getD "")) = XmlResult.parseError d) :
    parse_feed_custom_res f fc = Except.error (PErr.malformed d) ∧
    parse_feed_custom f fc = none := by
  constructor
  · simp [parse_feed_custom_res, ht, hf]
  · simp [parse_feed_custom, parse_feed_custom_res, ht, hf, Except.toOption]

/-- C6 witness: the spec's malformed example document with an unclosed
title tag. -/
theorem malformed_input_witness :
    parse_feed_custom_res (fun _ => XmlResult.parseError "mismatched tag")
        (some "<rss><channel><title>Oops</channel></rss>") =
      Except.error (PErr.malformed "mismatched tag") ∧
    parse_feed_custom (fun _ => XmlResult.parseError "mismatched tag")
        (some "<rss><channel><title>Oops</channel></rss>") = none :=
  malformed_input (fun _ => XmlResult.parseError "mismatched tag")
    (some "<rss><channel><title>Oops</channel></rss>") "mismatched tag"
    (by decide) rfl

/-- C7 (confirmed): a well-formed document detected as RSS2 (root tag
without namespace, not ending in feed, ending in rss) whose root has no
channel child is reported as the missing-channel error and yields no
feed value. -/
theorem missing_channel (f : String → XmlResult) (fc : Option String)
    (root : Element) (ht : truthyOpt fc = true)
    (hf : f (pyStrip (fc.getD "")) = XmlResult.ok root)
    (hb : pyContains root.tag '}' = false)
    (hfd : pyEndsWith root.tag "feed" = false)
    (hrs : pyEndsWith root.tag "rss" = true)
    (hch : findE root "channel" [] = Except.ok none) :
    parse_feed_custom_res f fc = Except.error PErr.missingChannel ∧
    parse_feed_custom f fc = none := by
  have hres : parse_feed_custom_res f fc = Except.error PErr.missingChannel := by
    rw [parse_res_ok_root f fc root ht hf]
    simp [parseRoot, parseNamespaces, hb, hfd, hrs, List.lookup, hch]
  exact ⟨hres, by simp [parse_feed_custom, hres, Except.toOption]⟩

/-- C7 witness: an RSS root whose only child is a title element. -/
theorem missing_channel_witness :
    parse_feed_custom_res (fun _ => XmlResult.ok c7Rss)
        (some "<rss><title>x</title></rss>") =
      Except.error PErr.missingChannel ∧
    parse_feed_custom (fun _ => XmlResult.ok c7Rss)
        (some "<rss><title>x</title></rss>") = none :=
  missing_channel (fun _ => XmlResult.ok c7Rss)
    (some "<rss><title>x</title></rss>") c7Rss
    (by decide) rfl (by decide) (by decide) (by decide) (by rfl)

/-- C8 (amended): fetch fails with HttpStatus(code) exactly for status
codes 400-599 (the range for which raise_for_status raises); any other
delivered status, including every 2xx but also informational and
redirect statuses that reach the client, returns the body. -/
theorem fetch_status_spec (status : Nat) (body : String) :
    (400 ≤ status ∧ status < 600 →
      fetch_feed_content_res status body =
        Except.error (FetchErr.httpStatus status) ∧
      fetch_feed_content status body = none) ∧
    (¬(400 ≤ status ∧ status < 600) →
      fetch_feed_content_res status body = Except.ok body ∧
      fetch_feed_content status body = some body) ∧
    (200 ≤ status ∧ status ≤ 299 →
      fetch_feed_content status body = some body) := by
  refine ⟨?_, ?_, ?_⟩
  · intro h
    constructor
    · simp [fetch_feed_content_res, h]
    · simp [fetch_feed_content, fetch_feed_content_res, h, Except.toOption]
  · intro h
    constructor
    · simp [fetch_feed_content_res, h]
    · simp [fetch_feed_content, fetch_feed_content_res, h, Except.toOption]
  · intro h
    have hno : ¬(400 ≤ status ∧ status < 600) := by omega
    simp [fetch_feed_content, fetch_feed_content_res, hno, Except.toOption]

/-- C8 witness: a 404 response fails with HttpStatus 404, and a 200
response returns the body. -/
theorem fetch_status_spec_witness :
    (fetch_feed_content_res 404 "nf" =
        Except.error (FetchErr.httpStatus 404) ∧
      fetch_feed_content 404 "nf" = none) ∧
    fetch_feed_content 200 "ok-body" = some "ok-body" :=
  ⟨(fetch_status_spec 404 "nf").1 (by decide),
   (fetch_status_spec 200 "ok-body").2.2 (by decide)⟩

/-- C8 counterexample: a 304 response is not in the 2xx range, yet fetch
returns the body instead of an HttpStatus failure, because
raise_for_status only raises for 400-599. -/
theorem fetch_status_claim_cex :
    fetch_feed_content_res 304 "b" = Except.ok "b" ∧
    fetch_feed_content 304 "b" = some "b" ∧
    ¬(200 ≤ 304 ∧ 304 ≤ 299) := by
  refine ⟨by decide, by decide, by decide⟩

/-- C9 (confirmed): normalization is a pure function of the input
content; two runs on identical content, with the same external XML
parser, yield structurally equal results, both for the classified result
and for the returned value. -/
theorem normalize_deterministic (f : String → XmlResult)
    (fc1 fc2 : Option String) (h : fc1 = fc2) :
    parse_feed_custom_res f fc1 = parse_feed_custom_res f fc2 ∧
    parse_feed_custom f fc1 = parse_feed_custom f fc2 := by
  rw [h]
  exact ⟨rfl, rfl⟩

/-- C9 witness: two runs on the RSS example document agree. -/
theorem normalize_deterministic_witness :
    parse_feed_custom_res (fun _ => XmlResult.ok c5Rss) (some "doc") =
      parse_feed_custom_res (fun _ => XmlResult.ok c5Rss) (some "doc") ∧
    parse_feed_custom (fun _ => XmlResult.ok c5Rss) (some "doc") =
      parse_feed_custom (fun _ => XmlResult.ok c5Rss) (some "doc") :=
  normalize_deterministic (fun _ => XmlResult.ok c5Rss) (some "doc")
    (some "doc") rfl

/-- C10 (confirmed): parse_feed_custom is total at its interface: every
call either returns a parsed value, namely when the classified run
succeeds, or returns None, namely when the classified run hits one of
the failure exits (empty input, XML parse failure, missing channel,
unknown dialect, or an exception caught by the catch-all handler); no
exception escapes. -/
theorem parse_total (f : String → XmlResult) (fc : Option String) :
    (∃ p, parse_feed_custom f fc = some p ∧
      parse_feed_custom_res f fc = Except.ok p) ∨
    (∃ er, parse_feed_custom f fc = none ∧
      parse_feed_custom_res f fc = Except.error er) := by
  cases h : parse_feed_custom_res f fc with
  | ok p => exact Or.inl ⟨p, by simp [parse_feed_custom, h, Except.toOption], rfl⟩
  | error er =>
    exact Or.inr ⟨er, by simp [parse_feed_custom, h, Except.toOption], rfl⟩

/-- C2 witness: the unknown-dialect example document with root foo is
reported as the unknown-dialect error. -/
theorem dialect_detection_witness :
    parse_feed_custom_res (fun _ => XmlResult.ok c2Foo)
        (some "<foo><bar/></foo>") =
      Except.error PErr.unknownDialect :=
  (dialect_detection (fun _ => XmlResult.ok c2Foo)
    (some "<foo><bar/></foo>") c2Foo (by decide) rfl).mpr (by decide)

/-- C4 witness: an element with no children yields an absent field. -/
theorem find_element_text_spec_witness :
    find_element_text c4Empty "title" [] = Except.ok none :=
  (find_element_text_spec c4Empty "title" []).1 (by rfl)
